import Mathlib

/-!
Verification of the agentic-newsroom pipeline core.

Shallow embedding of the repository's orchestration code:
* `schemas/models.py` — the pydantic data model (`StoryBrief`, `SearchResult`,
  `DraftPackage`, `FactReview`, `StyleReview`, `PublicationApproval`);
* `agents/research_assistant.py` — the turn-bounded research loop
  (`check_loop`, `finalize_research_node`, `build_research_assistant_graph`);
* `agents/reporter.py` — the two-pass draft refinement (`revise_facts`,
  `revise_style`);
* `workflows/newsroom_workflow.py` — the pipeline sequencer
  (`build_newsroom_workflow`);
* `tools/tavily_search.py` — the search wrapper.

Generative-model calls are modelled as oracle function parameters: a node
that invokes a model with a structured output contract takes the returned
value from the oracle.
-/

namespace AgenticNewsroom

/-- `Category` enum from `schemas/models.py`. -/
inductive Category where
  | science
  | history
  | planetEarth
  | mystery
deriving DecidableEq, Repr

/-- `StoryBrief` from `schemas/models.py` (the Assignment).
All fields are declared required (`Field(...)`); `key_questions` carries only
a description ("3-5 questions the article should answer"), no length bound. -/
structure StoryBrief where
  topic : String
  angle : String
  category : Category
  article_type : String
  key_questions : List String
  slug : String
  people_in_graphics : String
deriving DecidableEq, Repr

/-- `SearchResult` from `schemas/models.py`: a single piece of gathered info. -/
structure SearchResult where
  source : String
  content : String
  relevance : String
deriving DecidableEq, Repr

/-- `ResearchPackage` from `schemas/models.py`. -/
structure ResearchPackage where
  results : List SearchResult
deriving DecidableEq, Repr

/-- `DraftPackage` from `schemas/models.py`. -/
structure DraftPackage where
  full_draft : String
  sources : List String
  sources_section : String
deriving DecidableEq, Repr

/-- `ReviewRubric` from `schemas/models.py` (six 1-4 scores, recording only). -/
structure ReviewRubric where
  accuracy : Nat
  attribution : Nat
  completeness : Nat
  compliance : Nat
  structure_ : Nat
  voice : Nat
deriving DecidableEq, Repr

/-- `FactReview` from `schemas/models.py`. -/
structure FactReview where
  issues : List String
  rubric : ReviewRubric
deriving DecidableEq, Repr

/-- `StyleReview` from `schemas/models.py`. -/
structure StyleReview where
  issues : List String
  rubric : ReviewRubric
deriving DecidableEq, Repr

/-- `FinalArticle` from `schemas/models.py` (publish date elided: set
programmatically, not by the stages modelled here). -/
structure FinalArticle where
  title : String
  subtitle : Option String
  article : String
deriving DecidableEq, Repr

/-- `PublicationApproval` from `schemas/models.py` (the ApprovalDecision). -/
structure PublicationApproval where
  approved : Bool
  notes : List String
deriving DecidableEq, Repr

/-! ## Reporter: two-pass draft refinement (`agents/reporter.py`)

`revise_facts` / `revise_style` call the generative model only when the
review's issue list is non-empty; the model call is the oracle argument
`reviseModel`, receiving the formatted issue string and the current draft
text (the two message contents built in the source), and returning the
`RevisedDraft.full_draft` text. -/

/-- Issue bullet list as formatted by `revise_facts`/`revise_style`:
`"\n".join(f"- {issue}" for issue in issues)`. -/
def formatIssues (issues : List String) : String :=
  String.intercalate "\n" (issues.map (fun issue => "- " ++ issue))

/-- `revise_facts` from `agents/reporter.py` (lines 204-247): skip when the
fact review has no issues, otherwise replace `full_draft` with the model's
revision and carry `sources`/`sources_section` over from the input draft. -/
def revise_facts (draft_package : DraftPackage) (fact_review : FactReview)
    (reviseModel : String → String → String) : DraftPackage :=
  if fact_review.issues.isEmpty then draft_package
  else
    { full_draft := reviseModel (formatIssues fact_review.issues) draft_package.full_draft
      sources := draft_package.sources
      sources_section := draft_package.sources_section }

/-- `revise_style` from `agents/reporter.py` (lines 282-325): same shape as
`revise_facts`, driven by the style review. -/
def revise_style (draft_package : DraftPackage) (style_review : StyleReview)
    (reviseModel : String → String → String) : DraftPackage :=
  if style_review.issues.isEmpty then draft_package
  else
    { full_draft := reviseModel (formatIssues style_review.issues) draft_package.full_draft
      sources := draft_package.sources
      sources_section := draft_package.sources_section }

/-! ## Finalization (`finalize_research_node`, lines 254-279)

The Python loop builds `merged_map` (a dict, insertion ordered): the first
item for a source inserts a fresh `SearchResult`; later items with the same
source append `"\n\n" + content` to the stored item's content. The result is
`list(merged_map.values())`. Modelled as a left fold over an
insertion-ordered list of merged items. -/

/-- One iteration of the `for r in raw` loop of `finalize_research_node`. -/
def mergeStep (acc : List SearchResult) (r : SearchResult) : List SearchResult :=
  if acc.any (fun m => m.source = r.source) then
    acc.map (fun m =>
      if m.source = r.source then
        { m with content := m.content ++ "\n\n" ++ r.content }
      else m)
  else
    acc ++ [{ source := r.source, content := r.content, relevance := r.relevance }]

/-- The deduplication core of `finalize_research_node`: the `final_list`
wrapped into the `ResearchPackage`. -/
def finalize_research (raw : List SearchResult) : List SearchResult :=
  raw.foldl mergeStep []

/-! Spec-side description of finalization (for the refinement claim C4):
"exactly one item per distinct source-identifier, ordered by first occurrence
of each identifier, content = concatenation of all contents for that
identifier in original order joined with a separator, relevance note = that
of the first occurrence". -/

/-- Accumulate a key if it has not been seen yet (keeps first-occurrence
order). -/
def keepNew (acc : List String) (s : String) : List String :=
  if s ∈ acc then acc else acc ++ [s]

/-- The distinct elements of `xs`, ordered by first occurrence. -/
def firstOccurrences (xs : List String) : List String :=
  xs.foldl keepNew []

/-- The contents of all items with the given source identifier, in original
order. -/
def contentsFor (raw : List SearchResult) (s : String) : List String :=
  (raw.filter (fun r => r.source = s)).map (fun r => r.content)

/-- The relevance note of the first item with the given source identifier. -/
def firstRelevance : List SearchResult → String → Option String
  | [], _ => none
  | r :: rest, s => if r.source = s then some r.relevance else firstRelevance rest s

/-- Contents joined with the `"\n\n"` separator. -/
def joinContents : List String → String
  | [] => ""
  | [c] => c
  | c :: rest => c ++ "\n\n" ++ joinContents rest

/-- The merged item the spec prescribes for one source identifier. -/
def specItem (raw : List SearchResult) (s : String) : SearchResult :=
  { source := s
    content := joinContents (contentsFor raw s)
    relevance := (firstRelevance raw s).getD "" }

/-- Finalization as the spec words it: one merged item per distinct source
identifier, in first-occurrence order. -/
def finalizeSpec (raw : List SearchResult) : List SearchResult :=
  (firstOccurrences (raw.map (fun r => r.source))).map (specItem raw)

/-! ## Research loop execution (`build_research_assistant_graph`, lines 296-322)

Graph: `START → generate_queries → search_web → curate_urls →
extract_analyze`, then the conditional edge routes on `check_loop` either
back to `generate_queries` or to `finalize_research → END`.

One turn of the loop (generate queries, search, curate, extract/analyze) is
abstracted by a `TurnOracle`: turn `k` contributes `newItems k` to the
accumulated `search_results` and writes `isComplete k` to both completion
flags (as `extract_analyze_node` does). `generate_queries_node` sets
`current_turn = state.get("current_turn", 0) + 1` at the start of the
turn. -/

/-- The collaborator responses of the research loop, per turn number. -/
structure TurnOracle where
  newItems : Nat → List SearchResult
  isComplete : Nat → Bool

/-- Run the research loop from `turn` with accumulated results `acc` and
`turnsDone` completed turns: execute one full turn, then route on
`check_loop`. Returns the raw accumulated `search_results` and the number of
turns performed. -/
def researchLoopAux (o : TurnOracle) (maxTurns : Nat) :
    Nat → List SearchResult → Nat → List SearchResult × Nat
  | turn, acc, turnsDone =>
    let turn' := turn + 1
    let acc' := acc ++ o.newItems turn'
    let complete := o.isComplete turn'
    if h : complete || maxTurns ≤ turn' then (acc', turnsDone + 1)
    else researchLoopAux o maxTurns turn' acc' (turnsDone + 1)
termination_by turn _ _ => maxTurns - turn
decreasing_by
  simp_wf
  simp only [Bool.or_eq_true, decide_eq_true_eq, not_or] at h
  omega

/-- A full research-graph run from an initial state with the given
`max_turns`, `current_turn`, and (possibly pre-set) completion flag.
`extract_analyze_node` overwrites both completion flags before `check_loop`
first runs, so the initial flag is dead state, exactly as in the graph.
Returns the finalized `ResearchPackage` and the number of turns executed. -/
def research_run_from (o : TurnOracle) (maxTurns initTurn : Nat)
    (_initComplete : Bool) : ResearchPackage × Nat :=
  (⟨finalize_research (researchLoopAux o maxTurns initTurn [] 0).1⟩,
    (researchLoopAux o maxTurns initTurn [] 0).2)

/-- A research run as launched by `run_research_assistant` and the CLI:
`current_turn = 0`, no completion flag set. -/
def research_run (o : TurnOracle) (maxTurns : Nat) : ResearchPackage × Nat :=
  research_run_from o maxTurns 0 false

/-! ## Pipeline sequencer (`workflows/newsroom_workflow.py`) -/

/-- `NewsroomState` TypedDict from `schemas/states.py` (keys absent until a
stage writes them are `none`). -/
structure NewsroomState where
  article_idea : String
  story_brief : Option StoryBrief
  research_package : Option ResearchPackage
  draft_package : Option DraftPackage
  final_article : Option FinalArticle
  hero_image_path : Option String
  approval : Option PublicationApproval
deriving Repr

/-- The edge list built by `build_newsroom_workflow` (lines 93-99), with
langgraph's virtual `START`/`END` nodes as strings. The builder makes only
plain `add_edge` calls — no `add_conditional_edges` — so this list is the
complete stage graph of the sequencer. -/
def newsroomEdges : List (String × String) :=
  [("START", "assignment_editor"),
   ("assignment_editor", "research_assistant"),
   ("research_assistant", "reporter"),
   ("reporter", "copy_editor"),
   ("copy_editor", "graphic_desk"),
   ("graphic_desk", "editor_in_chief"),
   ("editor_in_chief", "END")]

/-- The subgraph collaborators invoked by the `run_*` node wrappers: the
value each compiled subgraph returns for the inputs the wrapper passes. -/
structure StageOracles where
  assignment_editor : String → StoryBrief
  research_assistant : StoryBrief → ResearchPackage
  reporter : StoryBrief → ResearchPackage → DraftPackage
  copy_editor : StoryBrief → DraftPackage → FinalArticle
  graphic_desk : StoryBrief → FinalArticle → Option String
  editor_in_chief : StoryBrief → FinalArticle → PublicationApproval

/-- One node application (`run_assignment_editor` … `run_editor_in_chief`
from `workflows/newsroom_workflow.py`): the node reads exactly the state
keys the Python wrapper reads (`state["..."]` on a missing key fails —
`none`), and writes its single output key. -/
def applyNode (o : StageOracles) (node : String) (st : NewsroomState) :
    Option NewsroomState :=
  if node = "assignment_editor" then
    some { st with story_brief := some (o.assignment_editor st.article_idea) }
  else if node = "research_assistant" then
    match st.story_brief with
    | some brief =>
        some { st with research_package := some (o.research_assistant brief) }
    | none => none
  else if node = "reporter" then
    match st.story_brief, st.research_package with
    | some brief, some pkg =>
        some { st with draft_package := some (o.reporter brief pkg) }
    | _, _ => none
  else if node = "copy_editor" then
    match st.story_brief, st.draft_package with
    | some brief, some dp =>
        some { st with final_article := some (o.copy_editor brief dp) }
    | _, _ => none
  else if node = "graphic_desk" then
    match st.story_brief, st.final_article with
    | some brief, some fa =>
        some { st with hero_image_path := o.graphic_desk brief fa }
    | _, _ => none
  else if node = "editor_in_chief" then
    match st.story_brief, st.final_article with
    | some brief, some fa =>
        some { st with approval := some (o.editor_in_chief brief fa) }
    | _, _ => none
  else none

/-- Successor of a node along the sequencer's edges. -/
def nextNode (n : String) : Option String :=
  (newsroomEdges.find? (fun e => e.1 = n)).map (fun e => e.2)

/-- Execute the sequencer graph from `node`, counting visits to the drafting
stage (`"reporter"`). `fuel` bounds the walk, so a cyclic edge list would
exhaust the fuel (`none`) instead of looping forever. -/
def runFrom (o : StageOracles) :
    Nat → String → NewsroomState → Nat → Option (NewsroomState × Nat)
  | 0, _, _, _ => none
  | fuel + 1, node, st, reporterCalls =>
    if node = "END" then some (st, reporterCalls)
    else if node = "START" then
      match nextNode node with
      | some n => runFrom o fuel n st reporterCalls
      | none => none
    else
      match applyNode o node st with
      | some st' =>
        let calls := if node = "reporter" then reporterCalls + 1 else reporterCalls
        match nextNode node with
        | some n => runFrom o fuel n st' calls
        | none => none
      | none => none

/-- A full pipeline run on an article idea (`main.py`: `workflow.invoke` on
`{"article_idea": idea}`). Fuel 8 covers `START`, the six stages and `END`. -/
def run_newsroom_workflow (o : StageOracles) (idea : String) :
    Option (NewsroomState × Nat) :=
  runFrom o 8 "START" ⟨idea, none, none, none, none, none, none⟩ 0

/-- The state a linear pass over the six stages produces. -/
def expectedFinalState (o : StageOracles) (idea : String) : NewsroomState :=
  let brief := o.assignment_editor idea
  let pkg := o.research_assistant brief
  let dp := o.reporter brief pkg
  let fa := o.copy_editor brief dp
  { article_idea := idea
    story_brief := some brief
    research_package := some pkg
    draft_package := some dp
    final_article := some fa
    hero_image_path := o.graphic_desk brief fa
    approval := some (o.editor_in_chief brief fa) }

/-! ## Pydantic validation (`schemas/models.py`)

`model.with_structured_output(T)` and `T.model_validate` accept any payload
in which every required field is present and well-typed and every declared
`Field` constraint holds. `StoryBrief.key_questions` carries only a
human-readable description ("3-5 questions the article should answer") —
no length constraint; `PublicationApproval.notes` has `default_factory=list`
and no constraint tying it to `approved`. -/

/-- A raw payload for `StoryBrief` validation (each field possibly absent). -/
structure StoryBriefInput where
  topic : Option String
  angle : Option String
  category : Option String
  article_type : Option String
  key_questions : Option (List String)
  slug : Option String
  people_in_graphics : Option String

/-- The `Category` enum coercion (`Category(str, Enum)` values). -/
def parseCategory (s : String) : Option Category :=
  if s = "Science" then some .science
  else if s = "History" then some .history
  else if s = "Planet Earth" then some .planetEarth
  else if s = "Mystery" then some .mystery
  else none

/-- Pydantic validation for `StoryBrief`: all seven fields are required
(`Field(...)`) and `category` must be an enum value; no other constraint is
declared — in particular none on the length of `key_questions`. -/
def validateStoryBrief (i : StoryBriefInput) : Option StoryBrief :=
  match i.topic, i.angle, i.category.bind parseCategory, i.article_type,
      i.key_questions, i.slug, i.people_in_graphics with
  | some topic, some angle, some category, some article_type,
      some key_questions, some slug, some people_in_graphics =>
    some ⟨topic, angle, category, article_type, key_questions, slug,
      people_in_graphics⟩
  | _, _, _, _, _, _, _ => none

/-- A raw payload for `PublicationApproval` validation. -/
structure PublicationApprovalInput where
  approved : Option Bool
  notes : Option (List String)

/-- Pydantic validation for `PublicationApproval`: `approved` is required;
`notes` defaults to `[]` (`default_factory=list`). No validator requires
notes to be non-empty when `approved` is false. -/
def validatePublicationApproval (i : PublicationApprovalInput) :
    Option PublicationApproval :=
  match i.approved with
  | some approved => some ⟨approved, i.notes.getD []⟩
  | none => none

/-! ## Search tools (`tools/tavily_search.py` and the research nodes)

`search_node` calls `perform_search(queries)`; `extract_analyze_node` calls
`perform_extract(urls)`. Both names are imported from
`tools/tavily_search`, which defines only the single-query wrapper
`search_web` (whose contract is to raise on a failed call); the batch
functions themselves are missing from the sources and are modelled from the
spec below. The capability's per-item outcome is an `Except`: `.error` is a
raised `SearchError`/`ExtractionError` for that item. -/

/-- One raw Tavily search result (the `{'url', 'title', 'content'}` dict
read by `curate_node`). -/
structure RawResult where
  url : String
  title : String
  content : String
deriving DecidableEq, Repr

/-- One Tavily extract result (the `{'url', 'raw_content'}` dict read by
`extract_analyze_node`). -/
structure ExtractResult where
  url : String
  raw_content : String
deriving DecidableEq, Repr

/-- Modelled from the spec: `perform_search` is missing from the sources
(only its import and call sites exist). Per §4.1/§7 — "a failed search …
call for one query/URL is non-fatal — log/skip and continue with whatever
was gathered" — it runs every query through the search capability, skips
failed queries, and concatenates the successful result batches in query
order. -/
def perform_search (search : String → Except String (List RawResult))
    (queries : List String) : List RawResult :=
  queries.foldl
    (fun acc q =>
      match search q with
      | .ok rs => acc ++ rs
      | .error _ => acc)
    []

/-- Modelled from the spec: `perform_extract` is missing from the sources
(only its import and call sites exist). Per §6 — "must fail with
`ExtractionError` per URL without aborting the batch" — it extracts each
curated URL, skipping per-URL failures. -/
def perform_extract (extract : String → Except String ExtractResult)
    (urls : List String) : List ExtractResult :=
  urls.foldl
    (fun acc u =>
      match extract u with
      | .ok e => acc ++ [e]
      | .error _ => acc)
    []

end AgenticNewsroom

namespace AgenticNewsroom

/-- A neutral rubric value used by concrete witnesses. -/
def rubric0 : ReviewRubric := ⟨3, 3, 3, 3, 3, 3⟩

/-- A concrete draft package used by concrete witnesses. -/
def draft0 : DraftPackage :=
  { full_draft := "## Lead\nBody text."
    sources := ["https://example.org/a"]
    sources_section := "Sources consulted include example.org." }

/-- A concrete story brief used by concrete witnesses. -/
def brief0 : StoryBrief :=
  { topic := "Dragon blood trees"
    angle := "Why they bleed"
    category := Category.science
    article_type := "Web Daily"
    key_questions := ["q1", "q2", "q3"]
    slug := "dragon-blood-trees"
    people_in_graphics := "Do not include any people in the hero image." }

/-- Concrete stage collaborators whose approval stage rejects with one
actionable note. -/
def oReject : StageOracles :=
  { assignment_editor := fun _ => brief0
    research_assistant := fun _ => ⟨[⟨"https://example.org/a", "c", "r"⟩]⟩
    reporter := fun _ _ => draft0
    copy_editor := fun _ _ => ⟨"Title", none, "Body"⟩
    graphic_desk := fun _ _ => some "artifacts/hero.png"
    editor_in_chief := fun _ _ =>
      ⟨false, ["missing attribution in paragraph 2"]⟩ }

/-- A concrete `StoryBrief` payload whose `key_questions` has one entry. -/
def briefInput1 : StoryBriefInput :=
  { topic := some "Dragon blood trees"
    angle := some "Why they bleed"
    category := some "Science"
    article_type := some "Web Daily"
    key_questions := some ["only one question"]
    slug := some "dragon-blood-trees"
    people_in_graphics := some "Do not include any people in the hero image." }

/-- A concrete search capability that fails on the query `"bad"`. -/
def searchW : String → Except String (List RawResult) := fun q =>
  if q = "bad" then Except.error "SearchError"
  else Except.ok [⟨"https://example.org", "Title", "snippet"⟩]

/-- A concrete extraction capability that fails on one URL. -/
def extractW : String → Except String ExtractResult := fun u =>
  if u = "https://dead.example" then Except.error "ExtractionError"
  else Except.ok ⟨u, "full text"⟩

end AgenticNewsroom

namespace AgenticNewsroom

/-! ## Research loop (`agents/research_assistant.py`)

The loop state is the `ResearchState` TypedDict; `state.get(key)` on a
possibly-absent key is modelled with `Option` fields, and `state.get(key,
default)` with `Option.getD`. -/

/-- `DEFAULT_MAX_TURNS` from `agents/research_assistant.py`. -/
def DEFAULT_MAX_TURNS : Nat := 5

/-- The slice of `ResearchState` read by `check_loop`. -/
structure CheckState where
  current_turn : Option Nat
  max_turns : Option Nat
  is_complete : Option Bool
  is_research_complete : Option Bool
deriving DecidableEq, Repr

/-- Truthiness of the Python expression `a or b` for two possibly-absent
booleans (`None` is falsy). -/
def pyOrTruthy (a b : Option Bool) : Bool :=
  a.getD false || b.getD false

/-- `check_loop` from `agents/research_assistant.py` (lines 281-293):
route to `"finalize_research"` when the completion flag (either of the two
state keys) is set or the turn counter has reached the budget, else back to
`"generate_queries"`. -/
def check_loop (state : CheckState) : String :=
  let current_turn := state.current_turn.getD 0
  let max_turns := state.max_turns.getD DEFAULT_MAX_TURNS
  let is_complete := pyOrTruthy state.is_complete state.is_research_complete
  if is_complete || max_turns ≤ current_turn then "finalize_research"
  else "generate_queries"

/-! ### Helper lemmas for the finalization refinement (C4) -/

theorem source_specItem (raw : List SearchResult) (s : String) :
    (specItem raw s).source = s := rfl

theorem mem_foldl_keepNew (xs : List String) :
    ∀ (acc : List String) (y : String),
      y ∈ xs.foldl keepNew acc ↔ y ∈ acc ∨ y ∈ xs := by
  induction xs with
  | nil => simp
  | cons x xs ih =>
    intro acc y
    rw [List.foldl_cons, ih]
    by_cases hx : x ∈ acc
    · simp only [keepNew, if_pos hx, List.mem_cons]
      constructor
      · rintro (h | h)
        · exact Or.inl h
        · exact Or.inr (Or.inr h)
      · rintro (h | h | h)
        · exact Or.inl h
        · exact Or.inl (h ▸ hx)
        · exact Or.inr h
    · simp only [keepNew, if_neg hx, List.mem_append, List.mem_singleton, List.mem_cons]
      tauto

theorem mem_firstOccurrences (xs : List String) (y : String) :
    y ∈ firstOccurrences xs ↔ y ∈ xs := by
  unfold firstOccurrences
  rw [mem_foldl_keepNew]
  simp

theorem firstOccurrences_append_single (xs : List String) (a : String) :
    firstOccurrences (xs ++ [a]) =
      if a ∈ xs then firstOccurrences xs else firstOccurrences xs ++ [a] := by
  unfold firstOccurrences
  rw [List.foldl_append, List.foldl_cons, List.foldl_nil]
  by_cases h : a ∈ xs
  · rw [if_pos h, keepNew, if_pos ((mem_foldl_keepNew xs [] a).2 (Or.inr h))]
  · rw [if_neg h, keepNew, if_neg (fun hc =>
      h (((mem_foldl_keepNew xs [] a).1 hc).resolve_left (List.not_mem_nil a)))]

theorem contentsFor_append_single (l : List SearchResult) (r : SearchResult) (s : String) :
    contentsFor (l ++ [r]) s =
      contentsFor l s ++ (if r.source = s then [r.content] else []) := by
  unfold contentsFor
  rw [List.filter_append]
  rw [List.map_append]
  congr 1
  by_cases h : r.source = s <;> simp [h]

theorem firstRelevance_append_some (l : List SearchResult) (r : SearchResult)
    (s : String) (v : String) (h : firstRelevance l s = some v) :
    firstRelevance (l ++ [r]) s = some v := by
  induction l with
  | nil => simp [firstRelevance] at h
  | cons x l ih =>
    rw [List.cons_append]
    unfold firstRelevance at h ⊢
    by_cases hx : x.source = s
    · simpa [hx] using h
    · simp only [if_neg hx] at h ⊢
      exact ih h

theorem firstRelevance_append_none (l : List SearchResult) (r : SearchResult)
    (s : String) (h : firstRelevance l s = none) :
    firstRelevance (l ++ [r]) s =
      if r.source = s then some r.relevance else none := by
  induction l with
  | nil => simp [firstRelevance]
  | cons x l ih =>
    rw [List.cons_append]
    unfold firstRelevance at h ⊢
    by_cases hx : x.source = s
    · simp [hx] at h
    · simp only [if_neg hx] at h ⊢
      exact ih h

theorem firstRelevance_isSome (l : List SearchResult) (s : String) :
    (firstRelevance l s).isSome ↔ s ∈ l.map (fun r => r.source) := by
  induction l with
  | nil => simp [firstRelevance]
  | cons x l ih =>
    unfold firstRelevance
    by_cases hx : x.source = s
    · simp [hx]
    · simp only [if_neg hx, ih, List.map_cons, List.mem_cons]
      constructor
      · exact Or.inr
      · rintro (h | h)
        · exact absurd h.symm hx
        · exact h

theorem contentsFor_eq_nil (l : List SearchResult) (s : String)
    (h : s ∉ l.map (fun r => r.source)) : contentsFor l s = [] := by
  induction l with
  | nil => rfl
  | cons x l ih =>
    simp only [List.map_cons, List.mem_cons] at h
    push_neg at h
    unfold contentsFor
    rw [List.filter_cons]
    have hx : ¬ x.source = s := fun he => h.1 he.symm
    simp only [hx, decide_False, cond_false]
    exact ih h.2

theorem contentsFor_ne_nil (l : List SearchResult) (s : String)
    (h : s ∈ l.map (fun r => r.source)) : contentsFor l s ≠ [] := by
  induction l with
  | nil => simp at h
  | cons x l ih =>
    simp only [List.map_cons, List.mem_cons] at h
    unfold contentsFor
    rw [List.filter_cons]
    by_cases hx : x.source = s
    · simp [hx]
    · have h2 : s ∈ l.map (fun r => r.source) := by
        rcases h with h | h
        · exact absurd h.symm hx
        · exact h
      simp only [hx, decide_False, cond_false]
      exact ih h2

theorem joinContents_append_single (cs : List String) (c : String) (h : cs ≠ []) :
    joinContents (cs ++ [c]) = joinContents cs ++ "\n\n" ++ c := by
  induction cs with
  | nil => exact absurd rfl h
  | cons x cs ih =>
    cases cs with
    | nil => rfl
    | cons y cs' =>
      have step : joinContents (x :: (y :: cs') ++ [c])
          = x ++ "\n\n" ++ joinContents ((y :: cs') ++ [c]) := by
        simp [joinContents]
      rw [List.cons_append] at step ⊢
      rw [step, ih (by simp)]
      simp [joinContents, String.append_assoc]

theorem specItem_append_ne (l : List SearchResult) (r : SearchResult) (s : String)
    (h : r.source ≠ s) : specItem (l ++ [r]) s = specItem l s := by
  unfold specItem
  simp only [SearchResult.mk.injEq, true_and]
  constructor
  · rw [contentsFor_append_single, if_neg h, List.append_nil]
  · cases hfr : firstRelevance l s with
    | some v => rw [firstRelevance_append_some l r s v hfr]
    | none => rw [firstRelevance_append_none l r s hfr, if_neg h]

theorem specItem_append_self_mem (l : List SearchResult) (r : SearchResult)
    (h : r.source ∈ l.map (fun x => x.source)) :
    specItem (l ++ [r]) r.source =
      { specItem l r.source with
          content := (specItem l r.source).content ++ "\n\n" ++ r.content } := by
  unfold specItem
  simp only [SearchResult.mk.injEq, true_and]
  constructor
  · rw [contentsFor_append_single, if_pos rfl]
    exact joinContents_append_single _ _ (contentsFor_ne_nil l r.source h)
  · have hs : (firstRelevance l r.source).isSome :=
      (firstRelevance_isSome l r.source).2 h
    rcases Option.isSome_iff_exists.1 hs with ⟨v, hv⟩
    rw [firstRelevance_append_some l r r.source v hv, hv]

theorem specItem_append_self_new (l : List SearchResult) (r : SearchResult)
    (h : r.source ∉ l.map (fun x => x.source)) :
    specItem (l ++ [r]) r.source = ⟨r.source, r.content, r.relevance⟩ := by
  unfold specItem
  simp only [SearchResult.mk.injEq, true_and]
  have hnone : firstRelevance l r.source = none := by
    cases hfr : firstRelevance l r.source with
    | none => rfl
    | some v =>
      exact absurd ((firstRelevance_isSome l r.source).1 (by rw [hfr]; rfl)) h
  constructor
  · rw [contentsFor_append_single, if_pos rfl, contentsFor_eq_nil l r.source h]
    rfl
  · rw [firstRelevance_append_none l r r.source hnone, if_pos rfl]
    rfl

theorem any_finalizeSpec_source (l : List SearchResult) (t : String) :
    (finalizeSpec l).any (fun m => m.source = t) = true
      ↔ t ∈ l.map (fun x => x.source) := by
  unfold finalizeSpec
  constructor
  · intro h
    rcases List.any_eq_true.1 h with ⟨m, hm, hp⟩
    rcases List.mem_map.1 hm with ⟨s, hs, rfl⟩
    have hst : s = t := by simpa [source_specItem] using hp
    subst hst
    exact (mem_firstOccurrences _ _).1 hs
  · intro h
    refine List.any_eq_true.2 ⟨specItem l t, ?_, ?_⟩
    · exact List.mem_map.2 ⟨t, (mem_firstOccurrences _ _).2 h, rfl⟩
    · simp [source_specItem]

theorem mergeStep_finalizeSpec (l : List SearchResult) (r : SearchResult) :
    mergeStep (finalizeSpec l) r = finalizeSpec (l ++ [r]) := by
  by_cases hmem : r.source ∈ l.map (fun x => x.source)
  · unfold mergeStep
    rw [if_pos ((any_finalizeSpec_source l r.source).2 hmem)]
    have hks : firstOccurrences ((l ++ [r]).map (fun x => x.source))
        = firstOccurrences (l.map (fun x => x.source)) := by
      rw [List.map_append]
      simp only [List.map_cons, List.map_nil]
      rw [firstOccurrences_append_single, if_pos hmem]
    unfold finalizeSpec
    rw [hks, List.map_map]
    apply List.map_congr_left
    intro s hs
    have hsl : s ∈ l.map (fun x => x.source) := (mem_firstOccurrences _ _).1 hs
    by_cases hsr : s = r.source
    · subst hsr
      simp only [Function.comp_apply, source_specItem, if_pos rfl]
      exact (specItem_append_self_mem l r hmem).symm
    · simp only [Function.comp_apply, source_specItem]
      rw [if_neg hsr]
      exact (specItem_append_ne l r s (fun he => hsr he.symm)).symm
  · have hcond : ¬((finalizeSpec l).any (fun m => m.source = r.source) = true) :=
      fun hc => hmem ((any_finalizeSpec_source l r.source).1 hc)
    unfold mergeStep
    rw [if_neg hcond]
    unfold finalizeSpec
    rw [List.map_append]
    simp only [List.map_cons, List.map_nil]
    rw [firstOccurrences_append_single, if_neg hmem, List.map_append]
    simp only [List.map_cons, List.map_nil]
    rw [specItem_append_self_new l r hmem]
    congr 1
    apply List.map_congr_left
    intro s hs
    have hsl : s ∈ l.map (fun x => x.source) := (mem_firstOccurrences _ _).1 hs
    have hsr : r.source ≠ s := fun he => hmem (he ▸ hsl)
    exact (specItem_append_ne l r s hsr).symm

/-- C4: `finalize_research_node` produces exactly one item per distinct
source identifier, ordered by first occurrence, whose content is the
concatenation of all contents for that identifier in original order joined
with the `"\n\n"` separator, and whose relevance note is that of the first
occurrence — i.e. the merge loop refines the spec-side `finalizeSpec`. -/
theorem C4_finalize_dedup (raw : List SearchResult) :
    finalize_research raw = finalizeSpec raw := by
  induction raw using List.reverseRecOn with
  | nil => rfl
  | append_singleton l r ih =>
    unfold finalize_research at ih ⊢
    rw [List.foldl_append, List.foldl_cons, List.foldl_nil, ih, mergeStep_finalizeSpec]

/-! ### Research loop execution lemmas (C2, C10) -/

/-- Unfolding equation for one iteration of the loop. -/
theorem researchLoopAux_eq (o : TurnOracle) (maxTurns turn : Nat)
    (acc : List SearchResult) (turnsDone : Nat) :
    researchLoopAux o maxTurns turn acc turnsDone =
      if o.isComplete (turn + 1) = true ∨ maxTurns ≤ turn + 1 then
        (acc ++ o.newItems (turn + 1), turnsDone + 1)
      else
        researchLoopAux o maxTurns (turn + 1) (acc ++ o.newItems (turn + 1))
          (turnsDone + 1) := by
  rw [researchLoopAux.eq_def]
  simp only [Bool.or_eq_true, decide_eq_true_eq]
  rfl

/-- The loop performs between 1 and `max (maxTurns - turn) 1` further turns. -/
theorem researchLoopAux_turns_bounds (o : TurnOracle) (B : Nat) :
    ∀ (fuel turn : Nat) (acc : List SearchResult) (turnsDone : Nat),
      B - turn ≤ fuel →
      turnsDone + 1 ≤ (researchLoopAux o B turn acc turnsDone).2 ∧
        (researchLoopAux o B turn acc turnsDone).2
          ≤ turnsDone + max (B - turn) 1 := by
  intro fuel
  induction fuel with
  | zero =>
    intro turn acc turnsDone h
    rw [researchLoopAux_eq, if_pos (Or.inr (by omega))]
    constructor
    · exact Nat.le_refl _
    · have : 1 ≤ max (B - turn) 1 := Nat.le_max_right _ _
      omega
  | succ fuel ih =>
    intro turn acc turnsDone h
    rw [researchLoopAux_eq]
    by_cases hc : o.isComplete (turn + 1) = true ∨ B ≤ turn + 1
    · rw [if_pos hc]
      have : 1 ≤ max (B - turn) 1 := Nat.le_max_right _ _
      exact ⟨Nat.le_refl _, by omega⟩
    · rw [if_neg hc]
      have hlt : turn + 1 < B := by omega
      have hih := ih (turn + 1) (acc ++ o.newItems (turn + 1)) (turnsDone + 1)
        (by omega)
      have h1 : max (B - (turn + 1)) 1 = B - (turn + 1) :=
        Nat.max_eq_left (by omega)
      have h2 : max (B - turn) 1 = B - turn := Nat.max_eq_left (by omega)
      omega

/-- C2 counterexample: with budget `B = 0` and sufficiency never signaled,
the research run still performs one turn, so "at most `B` turns" fails at
`B = 0`. -/
theorem C2_at_most_B_cex :
    (research_run ⟨fun _ => [], fun _ => false⟩ 0).2 = 1 ∧
      ¬ ((research_run ⟨fun _ => [], fun _ => false⟩ 0).2 ≤ 0) := by
  constructor
  · simp [research_run, research_run_from, researchLoopAux_eq]
  · simp [research_run, research_run_from, researchLoopAux_eq]

/-- C2 (amended): for every max-turn budget `B ≥ 0` and every sequence of
collaborator responses — including sufficiency never being signaled — the
research run always terminates (the run function is total) and performs at
most `max B 1` turns, returning a (possibly empty) `ResearchPackage`; for
every `B ≥ 1` that is at most `B` turns. -/
theorem C2_loop_terminates_bounded (o : TurnOracle) (B : Nat) :
    (research_run o B).2 ≤ max B 1 := by
  have h := (researchLoopAux_turns_bounds o B (B - 0) 0 [] 0 (Nat.le_refl _)).2
  simpa [research_run, research_run_from] using h

/-- C10: from every initial research state — every initial turn counter
`t`, every budget `B` (including `B = 0`), and every pre-set completion flag
`c` (which `extract_analyze_node` overwrites before `check_loop` first
runs) — the graph performs at least one full turn, and with `B = 0` it
performs exactly one turn whose gathered items (those of turn `t + 1`) reach
finalization: the turn counter is already `t + 1` at the first comparison
against the budget. -/
theorem C10_first_turn_before_check (o : TurnOracle) (B t : Nat) (c : Bool) :
    1 ≤ (research_run_from o B t c).2 ∧
      research_run_from o 0 t c
        = (⟨finalize_research (o.newItems (t + 1))⟩, 1) := by
  constructor
  · have h := (researchLoopAux_turns_bounds o B (B - t) t [] 0 (Nat.le_refl _)).1
    simpa [research_run_from] using h
  · simp [research_run_from, researchLoopAux_eq]

/-- C3: after an extract-and-evaluate step (which writes the same sufficiency
flag value to both `is_complete` and `is_research_complete`), the loop
continues to another turn iff the flag is not set and the turn counter is
strictly below the max-turn budget; otherwise it proceeds to finalization. -/
theorem C3_loop_decision (s : CheckState) (c : Bool)
    (h1 : s.is_complete = some c) (h2 : s.is_research_complete = some c) :
    (check_loop s = "generate_queries" ↔
      (c = false ∧ s.current_turn.getD 0 < s.max_turns.getD DEFAULT_MAX_TURNS)) ∧
    (check_loop s = "finalize_research" ↔
      (c = true ∨ s.max_turns.getD DEFAULT_MAX_TURNS ≤ s.current_turn.getD 0)) := by
  simp only [check_loop, pyOrTruthy, h1, h2, Option.getD_some]
  cases c with
  | false =>
    by_cases hle : s.max_turns.getD DEFAULT_MAX_TURNS ≤ s.current_turn.getD 0
    · simp [hle]
      try omega
    · simp [hle]
      try omega
  | true =>
    simp

theorem C3_loop_decision_witness :
    (check_loop ⟨some 2, some 5, some false, some false⟩ = "generate_queries" ↔
      ((false : Bool) = false ∧ (some 2 : Option Nat).getD 0
          < (some 5 : Option Nat).getD DEFAULT_MAX_TURNS)) ∧
    (check_loop ⟨some 2, some 5, some false, some false⟩ = "finalize_research" ↔
      ((false : Bool) = true ∨ (some 5 : Option Nat).getD DEFAULT_MAX_TURNS
          ≤ (some 2 : Option Nat).getD 0)) :=
  C3_loop_decision ⟨some 2, some 5, some false, some false⟩ false rfl rfl

/-- C5: if the fact review (resp. style review) returns an empty issue list,
the corresponding revision step returns the draft package unchanged:
identical `full_draft`, `sources`, and `sources_section`. -/
theorem C5_empty_review_revision_noop
    (d : DraftPackage) (fr : FactReview) (sr : StyleReview)
    (om os : String → String → String)
    (hf : fr.issues = []) (hs : sr.issues = []) :
    revise_facts d fr om = d ∧ revise_style d sr os = d := by
  constructor
  · simp [revise_facts, hf]
  · simp [revise_style, hs]

theorem C5_empty_review_revision_noop_witness :
    revise_facts draft0 ⟨[], rubric0⟩ (fun _ d => d) = draft0 ∧
      revise_style draft0 ⟨[], rubric0⟩ (fun _ d => d) = draft0 :=
  C5_empty_review_revision_noop draft0 ⟨[], rubric0⟩ ⟨[], rubric0⟩
    (fun _ d => d) (fun _ d => d) rfl rfl

/-- C6: when a revision step does run (non-empty issue list), the resulting
draft package differs from the input at most in `full_draft`: its `sources`
and `sources_section` are exactly those of the input draft. -/
theorem C6_revision_preserves_sources
    (d : DraftPackage) (fr : FactReview) (sr : StyleReview)
    (om os : String → String → String)
    (hf : fr.issues ≠ []) (hs : sr.issues ≠ []) :
    (revise_facts d fr om).sources = d.sources ∧
      (revise_facts d fr om).sources_section = d.sources_section ∧
      (revise_style d sr os).sources = d.sources ∧
      (revise_style d sr os).sources_section = d.sources_section := by
  have hf' : ¬ fr.issues.isEmpty := by
    cases h : fr.issues with
    | nil => exact absurd h hf
    | cons a l => simp [h]
  have hs' : ¬ sr.issues.isEmpty := by
    cases h : sr.issues with
    | nil => exact absurd h hs
    | cons a l => simp [h]
  refine ⟨?_, ?_, ?_, ?_⟩ <;> simp [revise_facts, revise_style, hf', hs']

theorem C6_revision_preserves_sources_witness :
    (revise_facts draft0 ⟨["issue one"], rubric0⟩ (fun _ _ => "new text")).sources
        = draft0.sources ∧
      (revise_facts draft0 ⟨["issue one"], rubric0⟩ (fun _ _ => "new text")).sources_section
        = draft0.sources_section ∧
      (revise_style draft0 ⟨["issue two"], rubric0⟩ (fun _ _ => "new text")).sources
        = draft0.sources ∧
      (revise_style draft0 ⟨["issue two"], rubric0⟩ (fun _ _ => "new text")).sources_section
        = draft0.sources_section :=
  C6_revision_preserves_sources draft0 ⟨["issue one"], rubric0⟩ ⟨["issue two"], rubric0⟩
    (fun _ _ => "new text") (fun _ _ => "new text") (by decide) (by decide)

end AgenticNewsroom

namespace AgenticNewsroom

/-- C1 counterexample: the sequencer's stage graph contains no feedback edge
from the approval stage back to drafting — the only edge leaving
`editor_in_chief` goes to `END`, the only edge entering `reporter` comes
from `research_assistant` — and on a run whose approval stage rejects with
the note "missing attribution in paragraph 2", the pipeline ends (reporter
invoked exactly once, rejection recorded in the final state) instead of
re-entering drafting. -/
theorem C1_no_feedback_edge_cex :
    (("editor_in_chief", "reporter") ∈ newsroomEdges → False) ∧
      newsroomEdges.filter (fun e => e.1 = "editor_in_chief")
        = [("editor_in_chief", "END")] ∧
      newsroomEdges.filter (fun e => e.2 = "reporter")
        = [("research_assistant", "reporter")] ∧
      (run_newsroom_workflow oReject "idea").map
          (fun p => (p.2, p.1.approval))
        = some (1, some ⟨false, ["missing attribution in paragraph 2"]⟩) := by
  refine ⟨by decide, by decide, by decide, rfl⟩

/-- C1 (amended): `build_newsroom_workflow` is strictly linear. The only
edge into the drafting stage comes from research, the only edge out of the
approval stage goes to `END`, and every pipeline run — in particular every
run whose `ApprovalDecision` has `approved = false` — executes the drafting
stage exactly once and terminates with the approval stage's decision in the
final state; the rejection notes are never fed back into drafting. -/
theorem C1_sequencer_linear (o : StageOracles) (idea : String) :
    newsroomEdges.filter (fun e => e.2 = "reporter")
        = [("research_assistant", "reporter")] ∧
      newsroomEdges.filter (fun e => e.1 = "editor_in_chief")
        = [("editor_in_chief", "END")] ∧
      run_newsroom_workflow o idea = some (expectedFinalState o idea, 1) := by
  refine ⟨by decide, by decide, rfl⟩

/-- C7: within a research turn, a failed search call for one query, or a
failed extraction call for one URL, is non-fatal — the failed item is
skipped and the batch proceeds with the remaining items, producing the same
(possibly thin) gathered collection as if the failed item were absent. -/
theorem C7_per_item_failure_nonfatal
    (search : String → Except String (List RawResult))
    (extract : String → Except String ExtractResult)
    (preQ postQ : List String) (q emsgQ : String)
    (preU postU : List String) (u emsgU : String)
    (hq : search q = Except.error emsgQ)
    (hu : extract u = Except.error emsgU) :
    perform_search search (preQ ++ q :: postQ)
        = perform_search search (preQ ++ postQ) ∧
      perform_extract extract (preU ++ u :: postU)
        = perform_extract extract (preU ++ postU) := by
  constructor
  · simp [perform_search, List.foldl_append, List.foldl_cons, hq]
  · simp [perform_extract, List.foldl_append, List.foldl_cons, hu]

theorem C7_per_item_failure_nonfatal_witness :
    perform_search searchW (["ok query"] ++ "bad" :: ["another ok"])
        = perform_search searchW (["ok query"] ++ ["another ok"]) ∧
      perform_extract extractW
          (["https://a.example"] ++ "https://dead.example" :: ["https://b.example"])
        = perform_extract extractW
          (["https://a.example"] ++ ["https://b.example"]) :=
  C7_per_item_failure_nonfatal searchW extractW
    ["ok query"] ["another ok"] "bad" "SearchError"
    ["https://a.example"] ["https://b.example"] "https://dead.example"
    "ExtractionError" rfl rfl

/-- C8 counterexample: a `StoryBrief` payload whose `key_questions` list has
exactly one entry passes validation (the schema declares no length bound),
so a brief produced by the planning stage or accepted downstream need not
have 3-5 key questions. -/
theorem C8_key_questions_cex :
    (validateStoryBrief briefInput1).map (fun b => b.key_questions.length)
        = some 1 ∧
      ¬ (3 ≤ 1) :=
  ⟨rfl, by decide⟩

/-- C8 (amended): the schema documents "3-5 questions" only in the field
description; validation enforces no bound — a `StoryBrief` whose
`key_questions` is any list whatsoever validates, and every validated brief
takes its `key_questions` verbatim from the payload. -/
theorem C8_key_questions_unenforced :
    (∀ qs : List String,
      validateStoryBrief { briefInput1 with key_questions := some qs }
        = some { brief0 with key_questions := qs }) ∧
    (∀ (i : StoryBriefInput) (b : StoryBrief),
      validateStoryBrief i = some b → i.key_questions = some b.key_questions) := by
  constructor
  · intro qs
    rfl
  · intro i b h
    unfold validateStoryBrief at h
    split at h
    · injection h with h
      subst h
      simp_all
    · exact Option.noConfusion h

theorem C8_key_questions_unenforced_witness :
    briefInput1.key_questions = some ["only one question"] :=
  C8_key_questions_unenforced.2 briefInput1
    { brief0 with key_questions := ["only one question"] } rfl

/-- C9 counterexample: a `PublicationApproval` with `approved = false` and
an empty (or absent, defaulted) `notes` list passes validation, so a
rejection need not carry any note. -/
theorem C9_rejection_notes_cex :
    validatePublicationApproval ⟨some false, some []⟩ = some ⟨false, []⟩ ∧
      validatePublicationApproval ⟨some false, none⟩ = some ⟨false, []⟩ ∧
      ¬ (1 ≤ ([] : List String).length) :=
  ⟨rfl, rfl, by decide⟩

/-- C9 (amended): the schema defaults `notes` to `[]` and constrains it in
no way — every payload with a boolean `approved` validates, with `notes`
passed through (or defaulted to empty) regardless of the decision; nothing
requires a rejection to carry a note. -/
theorem C9_notes_unconstrained :
    ∀ (a : Bool) (n : Option (List String)),
      validatePublicationApproval ⟨some a, n⟩ = some ⟨a, n.getD []⟩ :=
  fun _ _ => rfl

end AgenticNewsroom
